import Mathlib

/-!
Shallow embedding of the UARS ADCF WASM policy engine
(`services/adcf/wasm/policy-engine/src/lib.rs`).

Modelling conventions:
* Rust `String` becomes Lean `String`; `str::contains` (substring test)
  becomes `strContains` below.
* `f64` confidence and risk scores become `ℚ`.  The engine never computes
  with these values: it only compares them (`partial_cmp`, `<`, `>`), and
  on the non-NaN floats it manipulates that order agrees with the rational
  order, so `ℚ` is a faithful carrier.
* `serde_json` decoding of the host-supplied text is external library
  behaviour; each entry point takes the decoder output as an
  `Except String _` / `Option _` argument, and the engine logic downstream
  of decoding is embedded exactly.
* Fields of the Rust `PolicyContext` that the evaluation pipeline never
  reads (identifiers, timestamps, attribute maps, ...) are omitted from the
  embedding; no claim mentions them.
* Diagnostic `console_log!` output is a side channel that never affects
  control flow; it is dropped.
* `serde_json::to_string` of a `Vec<String>` is modelled by `jsonOfList`
  (a JSON array of the identifiers; character escaping inside the
  identifiers is not modelled, no claim depends on it).
-/

/-- Decides whether `pre` is a prefix of `l`, comparing characters. -/
def isPrefixL : List Char → List Char → Bool
  | [], _ => true
  | _ :: _, [] => false
  | a :: as, b :: bs => a == b && isPrefixL as bs

/-- Substring containment on character lists: Rust `str::contains`. -/
def containsL (hay needle : List Char) : Bool :=
  match hay with
  | [] => needle.isEmpty
  | _ :: t => isPrefixL needle hay || containsL t needle

/-- Rust `hay.contains(needle)`: `needle` occurs as a substring of `hay`. -/
def strContains (hay needle : String) : Bool :=
  containsL hay.toList needle.toList

/-- Embeds the Rust `PolicyResult` struct: decision string, human-readable
reason, confidence, and the obligation/advice lists carried as serialized
text. -/
structure PolicyResult where
  decision : String
  reason : String
  confidence : ℚ
  obligations : String
  advice : String
deriving DecidableEq, Repr

/-- Embeds `PolicyResult::new`: the Rust constructor initialises the
obligation and advice fields to the serialized empty list. -/
def PolicyResult.new (decision reason : String) (confidence : ℚ) :
    PolicyResult :=
  { decision := decision, reason := reason, confidence := confidence,
    obligations := "[]", advice := "[]" }

/-- Embeds the evaluator-relevant fields of the Rust `PolicyContext`.
Fields never read by the evaluation pipeline are omitted (see the header
comment). -/
structure PolicyContext where
  user_roles : List String
  device_attested : Bool
  mfa_verified : Bool
  business_hours : Bool
  risk_score : ℚ
  resource_classification : String
deriving DecidableEq, Repr

/-- Embeds the Rust `PolicyRule` struct. -/
structure PolicyRule where
  id : String
  name : String
  description : String
  priority : Int
  condition : String
  effect : String
  obligations : List String
  advice : List String
deriving DecidableEq, Repr

/-- Embeds the Rust `Policy` struct. -/
structure Policy where
  id : String
  name : String
  version : String
  description : String
  target : String
  rules : List PolicyRule
  combining_algorithm : String
  obligations : List String
  advice : List String
deriving DecidableEq, Repr

/-- Embeds `serde_json::to_string` on a `Vec<String>`: a JSON array of the
identifiers (identifier-internal escaping not modelled). -/
def jsonOfList (xs : List String) : String :=
  "[" ++ String.intercalate "," (xs.map (fun s => "\"" ++ s ++ "\"")) ++ "]"

/-- Embeds `PolicyEngine::evaluate_expression` (lib.rs 334-392): the
ordered, fixed list of recognized clause patterns.  The Rust `risk_score`
and `classification` blocks return early only when their inner comparator
substring also occurs, otherwise control falls through to the next check;
the `if`-chain below reproduces that fall-through exactly. -/
def evaluate_expression (expression : String) (context : PolicyContext) :
    Bool :=
  if expression == "" then true
  else if expression == "true" then true
  else if expression == "false" then false
  else if strContains expression "user.roles" && strContains expression "admin" then
    context.user_roles.contains "admin"
  else if strContains expression "device.attested" && strContains expression "true" then
    context.device_attested
  else if strContains expression "mfa.verified" && strContains expression "true" then
    context.mfa_verified
  else if strContains expression "business_hours" && strContains expression "true" then
    context.business_hours
  else if strContains expression "risk_score" && strContains expression "< 5.0" then
    decide (context.risk_score < 5)
  else if strContains expression "risk_score" && strContains expression "> 7.0" then
    decide (context.risk_score > 7)
  else if strContains expression "classification" && strContains expression "classified"
      && strContains expression "!=" then
    decide (context.resource_classification ≠ "classified")
  else if strContains expression "classification" && strContains expression "public"
      && strContains expression "==" then
    decide (context.resource_classification == "public")
  else false

/-- Embeds `PolicyEngine::evaluate_rule` (lib.rs 301-332): if the condition
holds, the rule effect string is copied unvalidated into the decision with
confidence 1.0 and the non-empty obligation/advice lists serialized in;
otherwise a NOTAPPLICABLE result with confidence 0.0. -/
def evaluate_rule (rule : PolicyRule) (context : PolicyContext) :
    PolicyResult :=
  if evaluate_expression rule.condition context then
    { decision := rule.effect,
      reason := "Rule \x27" ++ rule.name ++ "\x27 matched",
      confidence := 1,
      obligations := if rule.obligations.isEmpty then "[]" else jsonOfList rule.obligations,
      advice := if rule.advice.isEmpty then "[]" else jsonOfList rule.advice }
  else
    PolicyResult.new "NOTAPPLICABLE"
      ("Rule \x27" ++ rule.name ++ "\x27 condition not met") 0

/-- Bucket of results whose decision string is exactly "PERMIT"
(lib.rs 413-420 / 442-449 push them in input order, i.e. `filter`). -/
def permitsOf (results : List PolicyResult) : List PolicyResult :=
  results.filter (fun r => r.decision == "PERMIT")

/-- Bucket of results whose decision string is exactly "DENY". -/
def denysOf (results : List PolicyResult) : List PolicyResult :=
  results.filter (fun r => r.decision == "DENY")

/-- Bucket of results whose decision string is exactly "INDETERMINATE". -/
def indetsOf (results : List PolicyResult) : List PolicyResult :=
  results.filter (fun r => r.decision == "INDETERMINATE")

/-- Embeds the fold inside Rust `Iterator::max_by` keyed on `confidence`:
on a tie the later element replaces the accumulator, so of several equally
maximal elements the last one is returned, exactly as `max_by` documents.
`partial_cmp(..).unwrap_or(Equal)` never meets a NaN here since
confidences live in `ℚ`. -/
def maxByConfAux (acc : PolicyResult) : List PolicyResult → PolicyResult
  | [] => acc
  | x :: xs => maxByConfAux (if acc.confidence ≤ x.confidence then x else acc) xs

/-- Embeds `results.into_iter().max_by(confidence order)`: `none` exactly
on the empty list. -/
def maxByConf : List PolicyResult → Option PolicyResult
  | [] => none
  | r :: rs => some (maxByConfAux r rs)

/-- Default result shared by the bucket algorithms when every bucket is
empty (lib.rs 429-433 etc.). -/
def noApplicableRules : PolicyResult :=
  PolicyResult.new "INDETERMINATE" "No applicable rules" 0

/-- Embeds `PolicyEngine::permit_overrides` (lib.rs 408-435). -/
def permit_overrides (results : List PolicyResult) : PolicyResult :=
  match maxByConf (permitsOf results) with
  | some r => r
  | none =>
    match maxByConf (denysOf results) with
    | some r => r
    | none =>
      match maxByConf (indetsOf results) with
      | some r => r
      | none => noApplicableRules

/-- Embeds `PolicyEngine::deny_overrides` (lib.rs 437-464). -/
def deny_overrides (results : List PolicyResult) : PolicyResult :=
  match maxByConf (denysOf results) with
  | some r => r
  | none =>
    match maxByConf (permitsOf results) with
    | some r => r
    | none =>
      match maxByConf (indetsOf results) with
      | some r => r
      | none => noApplicableRules

/-- Embeds `PolicyEngine::first_applicable` (lib.rs 466-478). -/
def first_applicable : List PolicyResult → PolicyResult
  | [] => noApplicableRules
  | r :: rs => if r.decision != "NOTAPPLICABLE" then r else first_applicable rs

/-- Embeds `PolicyEngine::permit_unless_deny` (lib.rs 480-492). -/
def permit_unless_deny : List PolicyResult → PolicyResult
  | [] => PolicyResult.new "PERMIT" "Permit unless deny" 1
  | r :: rs => if r.decision == "DENY" then r else permit_unless_deny rs

/-- Embeds `PolicyEngine::deny_unless_permit` (lib.rs 494-506). -/
def deny_unless_permit : List PolicyResult → PolicyResult
  | [] => PolicyResult.new "DENY" "Deny unless permit" 1
  | r :: rs => if r.decision == "PERMIT" then r else deny_unless_permit rs

/-- Embeds `PolicyEngine::combine_rule_results` (lib.rs 394-406): dispatch
on the algorithm name, any unrecognized name falling back to
deny-overrides. -/
def combine_rule_results (algorithm : String) (results : List PolicyResult) :
    PolicyResult :=
  if algorithm == "permit-overrides" then permit_overrides results
  else if algorithm == "deny-overrides" then deny_overrides results
  else if algorithm == "first-applicable" then first_applicable results
  else if algorithm == "permit-unless-deny" then permit_unless_deny results
  else if algorithm == "deny-unless-permit" then deny_unless_permit results
  else deny_overrides results

/-- Embeds `PolicyEngine::is_policy_applicable` (lib.rs 275-282): empty
target is always applicable, otherwise the target expression decides.
(`unwrap_or(false)` is dead: `evaluate_expression` always returns `Ok`.) -/
def is_policy_applicable (policy : Policy) (context : PolicyContext) : Bool :=
  if policy.target.isEmpty then true
  else evaluate_expression policy.target context

/-- Embeds `PolicyEngine::evaluate_policy` (lib.rs 284-299): evaluate every
rule in list order, then combine with the policy-declared algorithm. -/
def evaluate_policy (policy : Policy) (context : PolicyContext) :
    PolicyResult :=
  combine_rule_results policy.combining_algorithm
    (policy.rules.map (fun rule => evaluate_rule rule context))

/-- Embeds `PolicyEngine::combine_policy_results` (lib.rs 508-511): the
cross-policy combination is hardcoded to deny-overrides. -/
def combine_policy_results (results : List PolicyResult) : PolicyResult :=
  deny_overrides results

/-- Embeds the body of `PolicyEngine::evaluate` after context decoding
(lib.rs 227-259): filter applicable policies, short-circuit when none,
else evaluate each and combine across policies. -/
def evaluateDecoded (policies : List Policy) (context : PolicyContext) :
    PolicyResult :=
  let applicable := policies.filter (fun p => is_policy_applicable p context)
  if applicable.isEmpty then
    PolicyResult.new "INDETERMINATE" "No applicable policies found" 0
  else
    combine_policy_results
      (applicable.map (fun p => evaluate_policy p context))

/-- Embeds `PolicyEngine::evaluate` (lib.rs 213-260).  `serde_json`
decoding of the context text is external library behaviour: the function
takes the decoder output (`Except` with the decoder message) and surfaces
a decode failure as the engine error, otherwise runs the pipeline, which
never fails. -/
def evaluate (policies : List Policy)
    (decodedContext : Except String PolicyContext) :
    Except String PolicyResult :=
  match decodedContext with
  | .error e => .error ("Failed to parse context: " ++ e)
  | .ok context => .ok (evaluateDecoded policies context)

/-- Embeds `PolicyEngine::load_policy` (lib.rs 174-189): append on decode
success, error (and untouched policy set) on decode failure.  Returns the
resulting policy set beside the call result. -/
def load_policy (policies : List Policy)
    (decodedPolicy : Except String Policy) :
    List Policy × Except String Unit :=
  match decodedPolicy with
  | .ok p => (policies ++ [p], .ok ())
  | .error e => (policies, .error ("Failed to parse policy: " ++ e))

/-- Embeds `PolicyEngine::load_policies` (lib.rs 191-210): the whole batch
is decoded first (`Vec<Policy>`), so on failure no policy is appended. -/
def load_policies (policies : List Policy)
    (decodedBatch : Except String (List Policy)) :
    List Policy × Except String Unit :=
  match decodedBatch with
  | .ok batch => (policies ++ batch, .ok ())
  | .error e => (policies, .error ("Failed to parse policies: " ++ e))

/-! Concrete fixtures used by witnesses and counterexamples.  Rational
constants are built directly from numerator and denominator so that the
kernel can evaluate comparisons on them; the lemmas below tie them to the
usual decimal values. -/

/-- Rational constant 0.4 (= 2/5), built without division. -/
def q04 : ℚ := ⟨2, 5, by decide, by decide⟩

/-- Rational constant 0.9 (= 9/10), built without division. -/
def q09 : ℚ := ⟨9, 10, by decide, by decide⟩

/-- Example result PERMIT(0.4) from the spec's combining example. -/
def exP04 : PolicyResult := PolicyResult.new "PERMIT" "rule a" q04

/-- Example result PERMIT(0.9) from the spec's combining example. -/
def exP09 : PolicyResult := PolicyResult.new "PERMIT" "rule b" q09

/-- Example result DENY(1.0) from the spec's combining example. -/
def exD10 : PolicyResult := PolicyResult.new "DENY" "rule c" 1

/-- Concrete context with a "public" resource classification, used to
exhibit the risk-score fall-through behaviour. -/
def ctxPub : PolicyContext :=
  { user_roles := ["analyst"], device_attested := true, mfa_verified := true,
    business_hours := true, risk_score := 3, resource_classification := "public" }

/-- Concrete context whose user-roles collection contains "admin". -/
def ctxAdmin : PolicyContext :=
  { user_roles := ["admin", "analyst"], device_attested := false,
    mfa_verified := false, business_hours := false, risk_score := 9,
    resource_classification := "internal" }

/-- Expression that contains "risk_score" but neither of the recognized
risk comparators, while matching the classification/public/== pattern. -/
def exprRC : String := "risk_score classification == public"

/-- Embeds the literal policy produced by `create_sample_policy`
(lib.rs 516-551). -/
def samplePolicy : Policy :=
  { id := "sample-policy-001",
    name := "Sample Access Policy",
    version := "1.0.0",
    description := "A sample policy for demonstration",
    target := "true",
    combining_algorithm := "deny-overrides",
    rules := [
      { id := "rule-001",
        name := "Require MFA for classified data",
        description := "Multi-factor authentication is required for accessing classified data",
        priority := 100,
        condition := "classification == \x27classified\x27 && mfa.verified == true",
        effect := "PERMIT",
        obligations := ["log_access"],
        advice := ["remind_classification"] },
      { id := "rule-002",
        name := "Deny high-risk access",
        description := "Deny access when risk score is too high",
        priority := 200,
        condition := "risk_score > 7.0",
        effect := "DENY",
        obligations := ["alert_security"],
        advice := [] }],
    obligations := [],
    advice := [] }

/-- Predicate singling out the three decision strings the bucket
algorithms recognize; anything else (including "NOTAPPLICABLE") falls to
the discard arm of the Rust `match`. -/
def recognizedDecision (r : PolicyResult) : Bool :=
  r.decision == "PERMIT" || r.decision == "DENY" || r.decision == "INDETERMINATE"

/-- Statement that `r` is a maximum-confidence member of `l`. -/
def isMaxConfOf (r : PolicyResult) (l : List PolicyResult) : Prop :=
  r ∈ l ∧ ∀ x ∈ l, x.confidence ≤ r.confidence

/-- Concrete rule whose condition is the literal "true", with a non-empty
obligation list. -/
def ruleTrue : PolicyRule :=
  { id := "rule-w", name := "witness rule", description := "always fires",
    priority := 0, condition := "true", effect := "PERMIT",
    obligations := ["log_access"], advice := [] }

/-- Value check: `q04` is 2/5, i.e. 0.4. -/
theorem q04_eq : q04 = 2 / 5 := by
  rw [show q04 = Rat.mk' 2 5 from rfl, Rat.mk'_eq_divInt, Rat.divInt_eq_div]
  norm_num

/-- Value check: `q09` is 9/10, i.e. 0.9. -/
theorem q09_eq : q09 = 9 / 10 := by
  rw [show q09 = Rat.mk' 9 10 from rfl, Rat.mk'_eq_divInt, Rat.divInt_eq_div]
  norm_num

/-! Helper lemmas about the `max_by` fold. -/

/-- Result of the `max_by` fold is the accumulator or a list member. -/
theorem maxByConfAux_eq_or_mem (acc : PolicyResult) (l : List PolicyResult) :
    maxByConfAux acc l = acc ∨ maxByConfAux acc l ∈ l := by
  induction l generalizing acc with
  | nil => left; rfl
  | cons x xs ih =>
    simp only [maxByConfAux]
    rcases ih (if acc.confidence ≤ x.confidence then x else acc) with h | h
    · rw [h]
      split
      · right; exact List.mem_cons_self x xs
      · left; rfl
    · right; exact List.mem_cons_of_mem x h

/-- Accumulator confidence never exceeds the fold result. -/
theorem le_maxByConfAux_acc (acc : PolicyResult) (l : List PolicyResult) :
    acc.confidence ≤ (maxByConfAux acc l).confidence := by
  induction l generalizing acc with
  | nil => exact le_refl _
  | cons x xs ih =>
    simp only [maxByConfAux]
    refine le_trans ?_ (ih _)
    split
    · next h => exact h
    · exact le_refl _

/-- List-member confidence never exceeds the fold result. -/
theorem le_maxByConfAux_mem (acc : PolicyResult) (l : List PolicyResult) :
    ∀ x ∈ l, x.confidence ≤ (maxByConfAux acc l).confidence := by
  induction l generalizing acc with
  | nil => intro x hx; exact absurd hx (List.not_mem_nil x)
  | cons y ys ih =>
    intro x hx
    simp only [maxByConfAux]
    rcases List.mem_cons.mp hx with rfl | hx
    · refine le_trans ?_ (le_maxByConfAux_acc _ ys)
      split
      · exact le_refl _
      · next h => exact (not_le.mp h).le
    · exact ih _ x hx

/-- On a non-empty list, `maxByConf` yields a maximum-confidence member. -/
theorem maxByConf_spec (l : List PolicyResult) (h : l ≠ []) :
    ∃ m, maxByConf l = some m ∧ isMaxConfOf m l := by
  match l with
  | [] => exact absurd rfl h
  | r :: rs =>
    refine ⟨maxByConfAux r rs, rfl, ?_, ?_⟩
    · rcases maxByConfAux_eq_or_mem r rs with h1 | h1
      · rw [h1]; exact List.mem_cons_self r rs
      · exact List.mem_cons_of_mem r h1
    · intro x hx
      rcases List.mem_cons.mp hx with rfl | hx
      · exact le_maxByConfAux_acc x rs
      · exact le_maxByConfAux_mem r rs x hx

/-- Non-empty PERMIT bucket wins under permit-overrides. -/
theorem permit_overrides_permits (rs : List PolicyResult)
    (h : permitsOf rs ≠ []) :
    isMaxConfOf (permit_overrides rs) (permitsOf rs) := by
  obtain ⟨m, hm, hspec⟩ := maxByConf_spec _ h
  unfold permit_overrides
  rw [hm]
  exact hspec

/-- With no PERMIT, a non-empty DENY bucket wins under permit-overrides. -/
theorem permit_overrides_denys (rs : List PolicyResult)
    (hp : permitsOf rs = []) (hd : denysOf rs ≠ []) :
    isMaxConfOf (permit_overrides rs) (denysOf rs) := by
  obtain ⟨m, hm, hspec⟩ := maxByConf_spec _ hd
  unfold permit_overrides
  rw [hp, hm]
  exact hspec

/-- With no PERMIT or DENY, a non-empty INDETERMINATE bucket wins under
permit-overrides. -/
theorem permit_overrides_indets (rs : List PolicyResult)
    (hp : permitsOf rs = []) (hd : denysOf rs = []) (hi : indetsOf rs ≠ []) :
    isMaxConfOf (permit_overrides rs) (indetsOf rs) := by
  obtain ⟨m, hm, hspec⟩ := maxByConf_spec _ hi
  unfold permit_overrides
  rw [hp, hd, hm]
  exact hspec

/-- With every bucket empty, permit-overrides yields the default. -/
theorem permit_overrides_default (rs : List PolicyResult)
    (hp : permitsOf rs = []) (hd : denysOf rs = []) (hi : indetsOf rs = []) :
    permit_overrides rs = noApplicableRules := by
  unfold permit_overrides
  rw [hp, hd, hi]
  rfl

/-- Non-empty DENY bucket wins under deny-overrides. -/
theorem deny_overrides_denys (rs : List PolicyResult)
    (h : denysOf rs ≠ []) :
    isMaxConfOf (deny_overrides rs) (denysOf rs) := by
  obtain ⟨m, hm, hspec⟩ := maxByConf_spec _ h
  unfold deny_overrides
  rw [hm]
  exact hspec

/-- With no DENY, a non-empty PERMIT bucket wins under deny-overrides. -/
theorem deny_overrides_permits (rs : List PolicyResult)
    (hd : denysOf rs = []) (hp : permitsOf rs ≠ []) :
    isMaxConfOf (deny_overrides rs) (permitsOf rs) := by
  obtain ⟨m, hm, hspec⟩ := maxByConf_spec _ hp
  unfold deny_overrides
  rw [hd, hm]
  exact hspec

/-- With no DENY or PERMIT, a non-empty INDETERMINATE bucket wins under
deny-overrides. -/
theorem deny_overrides_indets (rs : List PolicyResult)
    (hd : denysOf rs = []) (hp : permitsOf rs = []) (hi : indetsOf rs ≠ []) :
    isMaxConfOf (deny_overrides rs) (indetsOf rs) := by
  obtain ⟨m, hm, hspec⟩ := maxByConf_spec _ hi
  unfold deny_overrides
  rw [hd, hp, hm]
  exact hspec

/-- With every bucket empty, deny-overrides yields the default. -/
theorem deny_overrides_default (rs : List PolicyResult)
    (hd : denysOf rs = []) (hp : permitsOf rs = []) (hi : indetsOf rs = []) :
    deny_overrides rs = noApplicableRules := by
  unfold deny_overrides
  rw [hd, hp, hi]
  rfl

/-- C1: on a decodable context, `evaluate` filters the policy set to the
target-applicable policies (empty target always applicable, via
`is_policy_applicable`); with none applicable it returns INDETERMINATE
"No applicable policies found" with confidence 0, and otherwise it
combines the per-policy results with the fixed deny-overrides algorithm —
the per-policy combining-algorithm field plays no role across policies. -/
theorem evaluate_filters_then_deny_overrides
    (policies : List Policy) (context : PolicyContext) :
    (policies.filter (fun p => is_policy_applicable p context) = [] →
      evaluate policies (.ok context) =
        .ok (PolicyResult.new "INDETERMINATE" "No applicable policies found" 0)) ∧
    (policies.filter (fun p => is_policy_applicable p context) ≠ [] →
      evaluate policies (.ok context) =
        .ok (deny_overrides
          ((policies.filter (fun p => is_policy_applicable p context)).map
            (fun p => evaluate_policy p context)))) := by
  constructor
  · intro h
    simp [evaluate, evaluateDecoded, h]
  · intro h
    simp [evaluate, evaluateDecoded, combine_policy_results, h]

/-- Witness for C1: with the sample policy loaded and the concrete context
`ctxPub`, the applicable set is non-empty and `evaluate` returns the
deny-overrides combination of the per-policy results. -/
theorem evaluate_filters_then_deny_overrides_witness :
    [samplePolicy].filter (fun p => is_policy_applicable p ctxPub) ≠ [] ∧
    evaluate [samplePolicy] (.ok ctxPub) =
      .ok (deny_overrides
        (([samplePolicy].filter (fun p => is_policy_applicable p ctxPub)).map
          (fun p => evaluate_policy p ctxPub))) :=
  ⟨by decide,
   (evaluate_filters_then_deny_overrides [samplePolicy] ctxPub).2 (by decide)⟩

/-- C4: when a rule's condition evaluates true, `evaluate_rule` returns
the rule's effect string as the decision, reason "Rule '<name>' matched",
confidence 1.0, with obligations resp. advice carried as a serialized list
exactly when the rule's list is non-empty; when the condition evaluates
false it returns NOTAPPLICABLE, reason "Rule '<name>' condition not met",
confidence 0.0. -/
theorem evaluate_rule_spec (rule : PolicyRule) (context : PolicyContext) :
    (evaluate_expression rule.condition context = true →
      evaluate_rule rule context =
        { decision := rule.effect,
          reason := "Rule \x27" ++ rule.name ++ "\x27 matched",
          confidence := 1,
          obligations :=
            if rule.obligations.isEmpty then "[]" else jsonOfList rule.obligations,
          advice := if rule.advice.isEmpty then "[]" else jsonOfList rule.advice }) ∧
    (evaluate_expression rule.condition context = false →
      evaluate_rule rule context =
        PolicyResult.new "NOTAPPLICABLE"
          ("Rule \x27" ++ rule.name ++ "\x27 condition not met") 0) := by
  constructor <;> intro h <;> simp [evaluate_rule, h]

/-- Witness for C4: the literal-"true" rule fires on `ctxPub` and its
non-empty obligation list is attached serialized. -/
theorem evaluate_rule_spec_witness :
    evaluate_expression ruleTrue.condition ctxPub = true ∧
    evaluate_rule ruleTrue ctxPub =
      { decision := ruleTrue.effect,
        reason := "Rule \x27" ++ ruleTrue.name ++ "\x27 matched",
        confidence := 1,
        obligations :=
          if ruleTrue.obligations.isEmpty then "[]" else jsonOfList ruleTrue.obligations,
        advice := if ruleTrue.advice.isEmpty then "[]" else jsonOfList ruleTrue.advice } :=
  ⟨by decide, (evaluate_rule_spec ruleTrue ctxPub).1 (by decide)⟩

/-- C5: any expression containing both "user.roles" and "admin" evaluates
to exactly the membership test of "admin" in the context's user-roles
collection, whatever other text surrounds the two substrings. -/
theorem user_roles_admin_membership (context : PolicyContext)
    (expression : String)
    (h1 : strContains expression "user.roles" = true)
    (h2 : strContains expression "admin" = true) :
    evaluate_expression expression context =
      context.user_roles.contains "admin" := by
  have e1 : expression ≠ "" := by
    intro he; rw [he] at h1; exact absurd h1 (by decide)
  have e2 : expression ≠ "true" := by
    intro he; rw [he] at h1; exact absurd h1 (by decide)
  have e3 : expression ≠ "false" := by
    intro he; rw [he] at h1; exact absurd h1 (by decide)
  simp only [evaluate_expression]
  rw [if_neg (by simp [e1]), if_neg (by simp [e2]), if_neg (by simp [e3]),
    if_pos (by rw [h1, h2]; rfl)]

/-- Witness for C5: an expression phrased as an exclusion still evaluates
to the positive membership test, true on `ctxAdmin`. -/
theorem user_roles_admin_membership_witness :
    strContains "deny unless user.roles excludes admin" "user.roles" = true ∧
    strContains "deny unless user.roles excludes admin" "admin" = true ∧
    evaluate_expression "deny unless user.roles excludes admin" ctxAdmin =
      ctxAdmin.user_roles.contains "admin" :=
  ⟨by decide, by decide,
   user_roles_admin_membership ctxAdmin _ (by decide) (by decide)⟩

/-- C6: first-applicable returns, unchanged, the first result in input
order whose decision is not "NOTAPPLICABLE", and the default INDETERMINATE
"No applicable rules" result with confidence 0 when there is none. -/
theorem first_applicable_spec (results : List PolicyResult) :
    first_applicable results =
      (results.find? (fun r => r.decision != "NOTAPPLICABLE")).getD
        noApplicableRules := by
  induction results with
  | nil => rfl
  | cons r rs ih =>
    cases h : (r.decision != "NOTAPPLICABLE") with
    | true => simp [first_applicable, List.find?, h]
    | false => simp [first_applicable, List.find?, h, ih]

/-- C7: permit-unless-deny returns, unchanged, the first DENY in input
order and otherwise a fresh PERMIT with reason "Permit unless deny" and
confidence 1.0; deny-unless-permit symmetrically returns the first PERMIT
and otherwise a fresh DENY with reason "Deny unless permit" and
confidence 1.0. -/
theorem unless_algorithms_spec (results : List PolicyResult) :
    permit_unless_deny results =
      (results.find? (fun r => r.decision == "DENY")).getD
        (PolicyResult.new "PERMIT" "Permit unless deny" 1) ∧
    deny_unless_permit results =
      (results.find? (fun r => r.decision == "PERMIT")).getD
        (PolicyResult.new "DENY" "Deny unless permit" 1) := by
  constructor
  · induction results with
    | nil => rfl
    | cons r rs ih =>
      cases h : (r.decision == "DENY") with
      | true => simp [permit_unless_deny, List.find?, h]
      | false => simp [permit_unless_deny, List.find?, h, ih]
  · induction results with
    | nil => rfl
    | cons r rs ih =>
      cases h : (r.decision == "PERMIT") with
      | true => simp [deny_unless_permit, List.find?, h]
      | false => simp [deny_unless_permit, List.find?, h, ih]

/-- C8: any combining-algorithm name other than the five recognized ones
makes `combine_rule_results` produce exactly the result of a direct
deny-overrides call on the same input. -/
theorem unknown_algorithm_deny_overrides (algorithm : String)
    (results : List PolicyResult)
    (h1 : algorithm ≠ "permit-overrides")
    (h2 : algorithm ≠ "deny-overrides")
    (h3 : algorithm ≠ "first-applicable")
    (h4 : algorithm ≠ "permit-unless-deny")
    (h5 : algorithm ≠ "deny-unless-permit") :
    combine_rule_results algorithm results = deny_overrides results := by
  simp [combine_rule_results, h1, h2, h3, h4, h5]

/-- Witness for C8: the unknown name "weighted" routes to deny-overrides. -/
theorem unknown_algorithm_deny_overrides_witness :
    ("weighted" : String) ≠ "permit-overrides" ∧
    combine_rule_results "weighted" [exP04, exD10] =
      deny_overrides [exP04, exD10] :=
  ⟨by decide,
   unknown_algorithm_deny_overrides "weighted" [exP04, exD10]
     (by decide) (by decide) (by decide) (by decide) (by decide)⟩

/-- C9: the loading and evaluation entry points error exactly when the
decoder rejects the input text, the error carrying the decoder message; a
failed load (single or batch) leaves the policy set unchanged, a batch
failure adds no policy, and a decoded context always evaluates to a
result, never an error. -/
theorem decode_error_spec (policies : List Policy) :
    (∀ e, load_policy policies (.error e) =
      (policies, .error ("Failed to parse policy: " ++ e))) ∧
    (∀ p, load_policy policies (.ok p) = (policies ++ [p], .ok ())) ∧
    (∀ e, load_policies policies (.error e) =
      (policies, .error ("Failed to parse policies: " ++ e))) ∧
    (∀ batch, load_policies policies (.ok batch) =
      (policies ++ batch, .ok ())) ∧
    (∀ e, evaluate policies (.error e) =
      .error ("Failed to parse context: " ++ e)) ∧
    (∀ context, evaluate policies (.ok context) =
      .ok (evaluateDecoded policies context)) :=
  ⟨fun _ => rfl, fun _ => rfl, fun _ => rfl, fun _ => rfl, fun _ => rfl,
   fun _ => rfl⟩

/-- C2: permit-overrides and deny-overrides partition the input into the
PERMIT / DENY / INDETERMINATE buckets (everything else, in particular
NOTAPPLICABLE, is discarded), return a maximum-confidence member of the
highest-precedence non-empty bucket — PERMIT first for permit-overrides,
DENY first for deny-overrides, INDETERMINATE last for both — and the
default INDETERMINATE "No applicable rules" result with confidence 0 when
all buckets are empty; on [PERMIT(0.4), PERMIT(0.9), DENY(1.0)]
permit-overrides returns the PERMIT with confidence 0.9 and deny-overrides
returns the DENY. -/
theorem overrides_bucket_max_spec :
    (∀ rs : List PolicyResult,
      (permitsOf rs ≠ [] →
        isMaxConfOf (permit_overrides rs) (permitsOf rs)) ∧
      (permitsOf rs = [] → denysOf rs ≠ [] →
        isMaxConfOf (permit_overrides rs) (denysOf rs)) ∧
      (permitsOf rs = [] → denysOf rs = [] → indetsOf rs ≠ [] →
        isMaxConfOf (permit_overrides rs) (indetsOf rs)) ∧
      (permitsOf rs = [] → denysOf rs = [] → indetsOf rs = [] →
        permit_overrides rs = noApplicableRules) ∧
      (denysOf rs ≠ [] →
        isMaxConfOf (deny_overrides rs) (denysOf rs)) ∧
      (denysOf rs = [] → permitsOf rs ≠ [] →
        isMaxConfOf (deny_overrides rs) (permitsOf rs)) ∧
      (denysOf rs = [] → permitsOf rs = [] → indetsOf rs ≠ [] →
        isMaxConfOf (deny_overrides rs) (indetsOf rs)) ∧
      (denysOf rs = [] → permitsOf rs = [] → indetsOf rs = [] →
        deny_overrides rs = noApplicableRules)) ∧
    permit_overrides [exP04, exP09, exD10] = exP09 ∧
    deny_overrides [exP04, exP09, exD10] = exD10 :=
  ⟨fun rs =>
    ⟨permit_overrides_permits rs, permit_overrides_denys rs,
     permit_overrides_indets rs, permit_overrides_default rs,
     deny_overrides_denys rs, deny_overrides_permits rs,
     deny_overrides_indets rs, deny_overrides_default rs⟩,
   by decide, by decide⟩

/-- Witness for C2: on the spec's example list the PERMIT bucket is
non-empty and permit-overrides returns one of its maximum-confidence
members. -/
theorem overrides_bucket_max_spec_witness :
    permitsOf [exP04, exP09, exD10] ≠ [] ∧
    isMaxConfOf (permit_overrides [exP04, exP09, exD10])
      (permitsOf [exP04, exP09, exD10]) :=
  ⟨by decide,
   (overrides_bucket_max_spec.1 [exP04, exP09, exD10]).1 (by decide)⟩

/-- Counterexample to C3: the expression
"risk_score classification == public" satisfies every premise of the claim
(it reaches check 8: it is non-empty, not a boolean literal, matches none
of the user.roles/admin, device.attested, mfa.verified, business_hours
patterns; it contains "risk_score" but neither "< 5.0" nor "> 7.0"), yet
on `ctxPub` the evaluator returns true, not false: the code falls through
to the classification patterns of check 9, not to the default. -/
theorem risk_score_fallthrough_counterexample :
    (exprRC == "") = false ∧
    (exprRC == "true") = false ∧
    (exprRC == "false") = false ∧
    (strContains exprRC "user.roles" && strContains exprRC "admin") = false ∧
    (strContains exprRC "device.attested" && strContains exprRC "true") = false ∧
    (strContains exprRC "mfa.verified" && strContains exprRC "true") = false ∧
    (strContains exprRC "business_hours" && strContains exprRC "true") = false ∧
    strContains exprRC "risk_score" = true ∧
    strContains exprRC "< 5.0" = false ∧
    strContains exprRC "> 7.0" = false ∧
    evaluate_expression exprRC ctxPub = true := by
  decide

/-- C3 as amended: an expression that reaches check 8 and contains
"risk_score" but neither "< 5.0" nor "> 7.0" falls through to the
classification patterns of check 9; only when those also fail to match
does the evaluator return the default false. -/
theorem risk_score_fallthrough_amended (context : PolicyContext)
    (expression : String)
    (h0 : (expression == "") = false)
    (h1 : (expression == "true") = false)
    (h2 : (expression == "false") = false)
    (h3 : (strContains expression "user.roles"
      && strContains expression "admin") = false)
    (h4 : (strContains expression "device.attested"
      && strContains expression "true") = false)
    (h5 : (strContains expression "mfa.verified"
      && strContains expression "true") = false)
    (h6 : (strContains expression "business_hours"
      && strContains expression "true") = false)
    (h7 : strContains expression "risk_score" = true)
    (h8 : strContains expression "< 5.0" = false)
    (h9 : strContains expression "> 7.0" = false) :
    evaluate_expression expression context =
      (if strContains expression "classification"
          && strContains expression "classified"
          && strContains expression "!=" then
        decide (context.resource_classification ≠ "classified")
      else if strContains expression "classification"
          && strContains expression "public"
          && strContains expression "==" then
        decide (context.resource_classification == "public")
      else false) := by
  simp only [evaluate_expression]
  rw [if_neg (by simp [h0]), if_neg (by simp [h1]), if_neg (by simp [h2]),
    if_neg (by simp [h3]), if_neg (by simp [h4]), if_neg (by simp [h5]),
    if_neg (by simp [h6]), if_neg (by simp [h8]), if_neg (by simp [h9])]

/-- Witness for C3 as amended: instantiated at the counterexample
expression and context. -/
theorem risk_score_fallthrough_amended_witness :
    evaluate_expression exprRC ctxPub =
      (if strContains exprRC "classification"
          && strContains exprRC "classified"
          && strContains exprRC "!=" then
        decide (ctxPub.resource_classification ≠ "classified")
      else if strContains exprRC "classification"
          && strContains exprRC "public"
          && strContains exprRC "==" then
        decide (ctxPub.resource_classification == "public")
      else false) :=
  risk_score_fallthrough_amended ctxPub exprRC (by decide) (by decide)
    (by decide) (by decide) (by decide) (by decide) (by decide) (by decide)
    (by decide) (by decide)

/-- Filtering by `p` after a broader filter `q` equals filtering by `p`
alone, whenever `p` implies `q`. -/
theorem filter_of_filter_imp {α : Type} {p q : α → Bool}
    (h : ∀ a, p a = true → q a = true) (l : List α) :
    (l.filter q).filter p = l.filter p := by
  induction l with
  | nil => rfl
  | cons x xs ih =>
    cases hq : q x with
    | true =>
      cases hp : p x with
      | true => simp [List.filter_cons, hq, hp, ih]
      | false => simp [List.filter_cons, hq, hp, ih]
    | false =>
      have hp : p x = false := by
        cases hpx : p x with
        | true => rw [h x hpx] at hq; exact absurd hq (by decide)
        | false => rfl
      simp [List.filter_cons, hq, hp, ih]

/-- C10: permit-overrides and deny-overrides discard every result whose
decision string is not exactly "PERMIT", "DENY" or "INDETERMINATE"
(not just NOTAPPLICABLE ones): their output on any sequence equals their
output on the subsequence of recognized-decision results, and the output
itself always carries a recognized decision, so a matched rule with any
other effect (e.g. a lowercase "permit" copied unvalidated into the
decision by `evaluate_rule`) can never become the outcome. -/
theorem overrides_ignore_unrecognized_decisions (results : List PolicyResult) :
    permit_overrides results =
      permit_overrides (results.filter recognizedDecision) ∧
    deny_overrides results =
      deny_overrides (results.filter recognizedDecision) ∧
    recognizedDecision (permit_overrides results) = true ∧
    recognizedDecision (deny_overrides results) = true := by
  have hp : permitsOf (results.filter recognizedDecision) = permitsOf results :=
    filter_of_filter_imp
      (fun a ha => by simp [recognizedDecision, ha]) results
  have hd : denysOf (results.filter recognizedDecision) = denysOf results :=
    filter_of_filter_imp
      (fun a ha => by simp [recognizedDecision, ha]) results
  have hi : indetsOf (results.filter recognizedDecision) = indetsOf results :=
    filter_of_filter_imp
      (fun a ha => by simp [recognizedDecision, ha]) results
  refine ⟨?_, ?_, ?_, ?_⟩
  · unfold permit_overrides
    rw [hp, hd, hi]
  · unfold deny_overrides
    rw [hd, hp, hi]
  · by_cases h1 : permitsOf results = []
    · by_cases h2 : denysOf results = []
      · by_cases h3 : indetsOf results = []
        · rw [permit_overrides_default results h1 h2 h3]; rfl
        · have hm := (permit_overrides_indets results h1 h2 h3).1
          have := (List.mem_filter.mp hm).2
          simp [recognizedDecision, this]
      · have hm := (permit_overrides_denys results h1 h2).1
        have := (List.mem_filter.mp hm).2
        simp [recognizedDecision, this]
    · have hm := (permit_overrides_permits results h1).1
      have := (List.mem_filter.mp hm).2
      simp [recognizedDecision, this]
  · by_cases h2 : denysOf results = []
    · by_cases h1 : permitsOf results = []
      · by_cases h3 : indetsOf results = []
        · rw [deny_overrides_default results h2 h1 h3]; rfl
        · have hm := (deny_overrides_indets results h2 h1 h3).1
          have := (List.mem_filter.mp hm).2
          simp [recognizedDecision, this]
      · have hm := (deny_overrides_permits results h2 h1).1
        have := (List.mem_filter.mp hm).2
        simp [recognizedDecision, this]
    · have hm := (deny_overrides_denys results h2).1
      have := (List.mem_filter.mp hm).2
      simp [recognizedDecision, this]
